import Mathlib

/-!
Shallow embedding of the block-transfer command `BlockDataCommand` of
`src/slave/agilent/n5222a.py` (Agilent N5222A VNA driver).

Bytes are modelled as natural numbers (each the value of one byte), byte
buffers as lists of naturals.  Python exceptions are modelled by an
`Except` monad whose error type records the Python exception class that
is raised.  The semantics of the Python primitives the method uses
(`bytes.__getitem__`, slicing, `int()`, `chr`, `bytes.decode('ascii')`,
`struct.unpack` with a big-endian float format, `float()`, and the lazy
`map` of python3 / `future.builtins`) are embedded explicitly below,
restricted to the ways the source uses them.
-/

/-- Python exception classes that the modelled code can raise, at class
granularity (messages are not modelled). -/
inductive PyErr
  | valueError
  | structError
  | indexError
  | unicodeDecodeError
deriving Repr, DecidableEq

deriving instance DecidableEq for Except

/-- Boolean test for an Except value being a success. -/
def exceptOk {α : Type} : Except PyErr α → Bool
  | .ok _ => true
  | .error _ => false

/-- ASCII decimal digit test for a byte value, as Python `int()` accepts it:
for a one-character Latin-1 string the only characters `int()` parses as a
digit are `0x30`..`0x39`. -/
def isDigit (b : Nat) : Bool := decide (48 ≤ b ∧ b ≤ 57)

/-- Python whitespace bytes stripped by `int()` before parsing (ASCII range). -/
def isPySpace (b : Nat) : Bool := decide (b = 32 ∨ (9 ≤ b ∧ b ≤ 13))

/-- Strip leading and trailing whitespace, as `int()` does on its argument. -/
def stripWs (bs : List Nat) : List Nat :=
  ((bs.dropWhile isPySpace).reverse.dropWhile isPySpace).reverse

/-- Tail of a digit group in Python `int()` grammar: digits, with single
underscores allowed between digits (CPython 3.6+), accumulating the value. -/
def digitsTail (acc : Nat) : List Nat → Option Nat
  | [] => some acc
  | b :: rest =>
    if b = 95 then
      match rest with
      | [] => none
      | c :: rest2 =>
        if isDigit c then digitsTail (acc * 10 + (c - 48)) rest2 else none
    else if isDigit b then digitsTail (acc * 10 + (b - 48)) rest else none

/-- Parse a nonempty digit group (first character must be a digit). -/
def parseDigits : List Nat → Option Nat
  | [] => none
  | b :: rest => if isDigit b then digitsTail (b - 48) rest else none

/-- Python `int(s)` on a string given by its character codes: strip
whitespace, optional sign, nonempty digit group.  `ValueError` otherwise. -/
def pyIntStr (bs : List Nat) : Except PyErr Int :=
  match stripWs bs with
  | [] => .error .valueError
  | b :: rest =>
    if b = 43 then
      match parseDigits rest with
      | some n => .ok (n : Int)
      | none => .error .valueError
    else if b = 45 then
      match parseDigits rest with
      | some n => .ok (-(n : Int))
      | none => .error .valueError
    else
      match parseDigits (b :: rest) with
      | some n => .ok (n : Int)
      | none => .error .valueError

/-- Python `int(bs.decode('ascii'))` on a byte string: the decode raises
`UnicodeDecodeError` on any byte above `0x7F`, then `int()` parses. -/
def pyIntBytes (bs : List Nat) : Except PyErr Int :=
  if bs.all (fun b => decide (b < 128)) then pyIntStr bs
  else .error .unicodeDecodeError

/-- Python `int(chr(b))` for one byte `b`: the value of the digit, or
`ValueError` when `chr(b)` is not a decimal digit. -/
def pyIntChr (b : Nat) : Except PyErr Nat :=
  if isDigit b then .ok (b - 48) else .error .valueError

/-- Decimal value of a digit string (used to state what `int()` returns on
an all-digit field). -/
def decVal (bs : List Nat) : Nat :=
  bs.foldl (fun a b => a * 10 + (b - 48)) 0

/-- Python slice bound normalisation for `xs[a:b]` on a sequence of length
`len`: negative indices count from the end, and bounds clamp to the
sequence. -/
def pyBound (len : Nat) (i : Int) : Nat :=
  if i < 0 then (max 0 (i + len)).toNat else min i.toNat len

/-- Python slice `xs[a:b]`. -/
def pySlice (xs : List Nat) (a b : Int) : List Nat :=
  (xs.take (pyBound xs.length b)).drop (pyBound xs.length a)

/-- Value of one decoded IEEE-754 element.  The finite values are kept
exact as rationals; the sign and payload of a NaN are not distinguished. -/
inductive FloatVal
  | finite (q : ℚ)
  | inf (neg : Bool)
  | nan
deriving Repr, DecidableEq

/-- Big-endian word assembled from a byte list. -/
def beWord (bs : List Nat) : Nat :=
  bs.foldl (fun a b => a * 256 + b) 0

/-- IEEE-754 binary interpretation of a `1 + ebits + mbits` bit word:
sign, biased exponent, mantissa; exponent all-ones gives infinity or NaN,
exponent zero the subnormal range. -/
def ieeeDecode (ebits mbits : Nat) (w : Nat) : FloatVal :=
  let m := w % 2 ^ mbits
  let e := w / 2 ^ mbits % 2 ^ ebits
  let s : Bool := w / 2 ^ (mbits + ebits) % 2 = 1
  if e = 2 ^ ebits - 1 then
    if m = 0 then .inf s else .nan
  else
    let bias : Int := 2 ^ (ebits - 1) - 1
    let ex : Int := (if e = 0 then 1 else (e : Int)) - bias - (mbits : Int)
    let sig : Nat := if e = 0 then m else 2 ^ mbits + m
    let mag : ℚ := (sig : ℚ) * (2 : ℚ) ^ ex
    .finite (if s then -mag else mag)

/-- One element of `struct.unpack` with format character `f` (big-endian
binary32, element width 4) or `d` (big-endian binary64, element width 8),
as the source selects them by width. -/
def unpack1 (size : Nat) (bs : List Nat) : FloatVal :=
  if size = 4 then ieeeDecode 8 23 (beWord bs) else ieeeDecode 11 52 (beWord bs)

/-- Sequential element decoding of `struct.unpack('>' + c*n, data)`: `n`
elements, each consuming `size` bytes in transmission order. -/
def unpackChunks (size : Nat) : Nat → List Nat → List FloatVal
  | 0, _ => []
  | n + 1, data => unpack1 size (data.take size) :: unpackChunks size n (data.drop size)

/-- Python `struct.unpack(native_str('>' + fmtchar*num_vars), data)`: a
negative repetition count yields an empty format; the data length must
equal the format's size exactly, else `struct.error` is raised. -/
def unpack (size : Nat) (numVars : Int) (data : List Nat) : Except PyErr (List FloatVal) :=
  if data.length = size * numVars.toNat then .ok (unpackChunks size numVars.toNat data)
  else .error .structError

/-- Binary branch of `BlockDataCommand.query` on the buffer returned by
`transport.read_until(0x0A)`, following the source line by line:
`data[0]` must be `#` (else ValueError), `digits = int(chr(data[1]))`,
`headerlength = 2 + digits`,
`byte_count = int(data[2:headerlength].decode('ascii'))`,
`data = data[headerlength:headerlength + byte_count]`,
`num_vars = int(byte_count / size)` (exact for any value a 9-digit field
can hold, so truncating integer division), then `struct.unpack`. -/
def parseBlock (size : Nat) (data : List Nat) : Except PyErr (List FloatVal) :=
  match data with
  | [] => .error .indexError
  | b0 :: _ =>
    if b0 ≠ 35 then .error .valueError
    else
      match data.get? 1 with
      | none => .error .indexError
      | some b1 =>
        match pyIntChr b1 with
        | .error e => .error e
        | .ok digits =>
          let headerlength : Nat := 2 + digits
          match pyIntBytes (pySlice data 2 (headerlength : Int)) with
          | .error e => .error e
          | .ok byteCount =>
            let payload := pySlice data (headerlength : Int) ((headerlength : Int) + byteCount)
            let numVars : Int := Int.tdiv byteCount (size : Int)
            unpack size numVars payload

/-- ASCII-range whitespace characters Python `float()` strips. -/
def isSpaceC (c : Char) : Bool :=
  decide (c = ' ' ∨ c = '\t' ∨ c = '\n' ∨ c = '\r' ∨ c = '\x0b' ∨ c = '\x0c')

/-- Decimal value of a character digit list. -/
def decValC (cs : List Char) : Nat :=
  cs.foldl (fun a c => a * 10 + (c.toNat - 48)) 0

/-- Exponent part of a Python float literal: empty, or `e`/`E`, an optional
sign and a nonempty digit group. -/
def parseExp : List Char → Option Int
  | [] => some 0
  | c :: t =>
    if c = 'e' ∨ c = 'E' then
      let st : Bool × List Char :=
        match t with
        | d :: t2 => if d = '+' then (false, t2) else if d = '-' then (true, t2) else (false, t)
        | [] => (false, t)
      match st.2 with
      | [] => none
      | _ =>
        if st.2.all Char.isDigit then
          some (if st.1 then -(decValC st.2 : Int) else (decValC st.2 : Int))
        else none
    else none

/-- Body of a Python float literal after the optional sign: `inf`,
`infinity` or `nan` (case-insensitive), or a decimal mantissa with an
optional fraction and exponent.  The finite value is kept exact as a
rational (IEEE rounding and overflow of the literal are not modelled;
only parse success or failure matters to the claims below). -/
def pyFloatBody (neg : Bool) (cs : List Char) : Option FloatVal :=
  let low : String := String.mk (cs.map Char.toLower)
  if low = "inf" ∨ low = "infinity" then some (.inf neg)
  else if low = "nan" then some .nan
  else
    let sp1 := cs.span Char.isDigit
    let hasDot : Bool := sp1.2.head? = some '.'
    let sp2 := if hasDot then sp1.2.tail.span Char.isDigit else ([], sp1.2)
    if sp1.1 = [] ∧ sp2.1 = [] then none
    else
      match parseExp sp2.2 with
      | none => none
      | some ex =>
        let mant : ℚ := (decValC (sp1.1 ++ sp2.1) : ℚ)
        let v : ℚ := mant * (10 : ℚ) ^ (ex - (sp2.1.length : Int))
        some (.finite (if neg then -v else v))

/-- Python `float(s)`: strip whitespace, optional sign, then the literal
body; `ValueError` when the string is not a float literal. -/
def pyFloat (s : String) : Except PyErr FloatVal :=
  let cs := ((s.data.dropWhile isSpaceC).reverse.dropWhile isSpaceC).reverse
  let parsed : Option FloatVal :=
    match cs with
    | [] => none
    | c :: t =>
      if c = '+' then pyFloatBody false t
      else if c = '-' then pyFloatBody true t
      else pyFloatBody false cs
  match parsed with
  | some v => .ok v
  | none => .error .valueError

/-- Consumption of the lazy `map(float, data)` object the ASCII branch
returns: iterating it applies `float` to each field in order, raising the
first parse error only at that point. -/
def consumeMap : List String → Except PyErr (List FloatVal)
  | [] => .ok []
  | f :: rest =>
    match pyFloat f with
    | .error e => .error e
    | .ok v =>
      match consumeMap rest with
      | .error e => .error e
      | .ok vs => .ok (v :: vs)

/-- Result value of `BlockDataCommand.query`: the binary branch returns a
list of decoded floats, the ASCII branch returns the *unevaluated*
`map(float, fields)` object, carrying the still-unparsed fields. -/
inductive QueryResult
  | lazyMap (fields : List String)
  | floats (xs : List FloatVal)
deriving Repr, DecidableEq

/-- Transport-level happenings of one `query` call, in program order.
`protoWrite` and `protoQuery` are the protocol handle's operations, which
are not part of this repository.  Modelled from the spec: the protocol
handle formats one instruction plus zero or more argument tokens into one
outgoing byte sequence on the transport, and a protocol-level query is
one such write followed by one delimited read (spec section 6); neither is
stated to hold the scoped acquisition.  `acquire`/`release` delimit the
scoped acquisition entered by `with transport`. -/
inductive Event
  | protoWrite (instr : Option String) (args : List String)
  | protoQuery (instr : Option String)
  | acquire
  | release
  | rawWrite (instr : Option String)
  | rawReadUntil (delim : Nat)
deriving Repr, DecidableEq

/-- Transport traffic (a write or a read), as opposed to acquiring or
releasing the transport. -/
def isTraffic : Event → Bool
  | .acquire => false
  | .release => false
  | _ => true

/-- True when some transport traffic of the trace happens while the scoped
acquisition is not held (the state folds over acquire/release). -/
def trafficOutside (tr : List Event) : Bool :=
  (tr.foldl
    (fun (st : Bool × Bool) e =>
      match e with
      | .acquire => (true, st.2)
      | .release => (false, st.2)
      | _ => (st.1, st.2 || !st.1))
    (false, false)).2

/-- Environment of one call: the buffer `transport.read_until(0x0A)`
returns in the binary branch, and the list of reply fields
`protocol.query` returns in the ASCII branch (modelled from the spec: the
protocol handle extracts the reply tokens of one incoming line). -/
structure Wire where
  buffer : List Nat
  asciiReply : List String
deriving Repr, DecidableEq

/-- The `BlockDataCommand` object: its attributes as `__init__` sets them.
Protocol objects are opaque; `protocol` is `none` for Python `None`
(the constructor's default), `some p` for a protocol object `p`. -/
structure BlockDataCommand where
  protocol : Option Nat
  _query : Option String
  format : String
deriving Repr, DecidableEq

/-- Default of the constructor's `format` parameter. -/
def defaultFormat : String := "ascii"

/-- Python `BlockDataCommand.__init__(query, protocol, format)`: stores the
attributes and raises `ValueError` unless `format` is one of the tuple
`('REAL,32', 'REAL,64', 'ASC,0')`. -/
def BlockDataCommand.init (query : Option String) (protocol : Option Nat)
    (format : String) : Except PyErr BlockDataCommand :=
  if ("REAL,32" :: "REAL,64" :: "ASC,0" :: []).contains format then
    .ok { protocol := protocol, _query := query, format := format }
  else .error .valueError

/-- Element width the binary branch selects: 4 bytes for `REAL,32`
(format character `f`), else 8 bytes (format character `d`). -/
def elemSize (format : String) : Nat :=
  if format = "REAL,32" then 4 else 8

/-- Python `BlockDataCommand.query(self, transport, protocol)`.  Returns
the call's outcome, the transport-event trace and the object as the call
leaves it.  Mirrors the source: `self.protocol` is reassigned when truthy;
`protocol.write(transport, 'FORM:DATA', self.format)` always runs first;
the ASCII branch does one protocol-level query and returns the lazy map;
the binary branch does a stray `protocol.write(transport, self._query)`,
then inside `with transport` writes the query again raw, reads until
`0x0A` and parses the block (the with-block releases on every exit path,
so the trace is the same whether parsing succeeds or raises). -/
def BlockDataCommand.query (self : BlockDataCommand) (p : Nat) (w : Wire) :
    Except PyErr QueryResult × List Event × BlockDataCommand :=
  let self1 := if self.protocol.isSome then { self with protocol := some p } else self
  if self.format = "ASC,0" then
    (.ok (.lazyMap w.asciiReply),
     [.protoWrite (some "FORM:DATA") [self.format], .protoQuery self._query],
     self1)
  else
    ((parseBlock (elemSize self.format) w.buffer).map QueryResult.floats,
     [.protoWrite (some "FORM:DATA") [self.format],
      .protoWrite self._query [],
      .acquire,
      .rawWrite self._query,
      .rawReadUntil 10,
      .release],
     self1)

/-- Number of floats a query outcome carries (zero when it is an error or
a lazy map). -/
def floatCount : Except PyErr QueryResult → Nat
  | .ok (.floats l) => l.length
  | _ => 0

/-! ## Facts about the embedded primitives -/

lemma dropWhile_eq_self_of (p : Nat → Bool) (l : List Nat)
    (h : ∀ b ∈ l, p b = false) : l.dropWhile p = l := by
  cases l with
  | nil => rfl
  | cons a t => simp [List.dropWhile_cons, h a (List.mem_cons_self a t)]

lemma isPySpace_of_digit (b : Nat) (h : isDigit b = true) : isPySpace b = false := by
  simp only [isDigit, decide_eq_true_eq] at h
  simp only [isPySpace, decide_eq_false_iff_not]
  omega

lemma stripWs_eq_self (bs : List Nat) (h : ∀ b ∈ bs, isPySpace b = false) :
    stripWs bs = bs := by
  unfold stripWs
  rw [dropWhile_eq_self_of _ _ h,
      dropWhile_eq_self_of _ _ (fun b hb => h b (List.mem_reverse.mp hb)),
      List.reverse_reverse]

lemma digitsTail_digits (bs : List Nat) : ∀ acc : Nat, (∀ b ∈ bs, isDigit b = true) →
    digitsTail acc bs = some (bs.foldl (fun a b => a * 10 + (b - 48)) acc) := by
  induction bs with
  | nil => intro acc _; rfl
  | cons b t ih =>
    intro acc h
    have hb := h b (List.mem_cons_self b t)
    have h57 : 48 ≤ b ∧ b ≤ 57 := by simpa [isDigit] using hb
    have h95 : ¬ b = 95 := by omega
    rw [digitsTail.eq_def]
    simp only [if_neg h95, if_pos hb]
    rw [ih _ (fun x hx => h x (List.mem_cons_of_mem _ hx))]
    rfl

lemma pyIntStr_digits (b : Nat) (rest : List Nat)
    (hd : ∀ x ∈ b :: rest, isDigit x = true) :
    pyIntStr (b :: rest) = .ok ((decVal (b :: rest) : Nat) : Int) := by
  have hb := hd b (List.mem_cons_self b rest)
  have hb48 : 48 ≤ b ∧ b ≤ 57 := by simpa [isDigit] using hb
  have hstrip : stripWs (b :: rest) = b :: rest :=
    stripWs_eq_self _ (fun x hx => isPySpace_of_digit _ (hd x hx))
  have h43 : ¬ b = 43 := by omega
  have h45 : ¬ b = 45 := by omega
  unfold pyIntStr
  rw [hstrip]
  simp only [if_neg h43, if_neg h45, parseDigits, if_pos hb,
    digitsTail_digits rest (b - 48) (fun x hx => hd x (List.mem_cons_of_mem _ hx))]
  simp [decVal]

lemma pyIntBytes_digits (bs : List Nat) (hne : bs ≠ [])
    (hd : ∀ x ∈ bs, isDigit x = true) :
    pyIntBytes bs = .ok ((decVal bs : Nat) : Int) := by
  cases bs with
  | nil => exact absurd rfl hne
  | cons b rest =>
    have hall : (b :: rest).all (fun x => decide (x < 128)) = true := by
      rw [List.all_eq_true]
      intro x hx
      have := hd x hx
      simp only [isDigit, decide_eq_true_eq] at this
      simp only [decide_eq_true_eq]
      omega
    rw [pyIntBytes, if_pos hall]
    exact pyIntStr_digits b rest hd

lemma take_min_length (xs : List Nat) (n : Nat) :
    xs.take (min n xs.length) = xs.take n := by
  rcases le_total n xs.length with h | h
  · rw [min_eq_left h]
  · rw [min_eq_right h, List.take_length, List.take_of_length_le h]

lemma pySlice_nonneg (xs : List Nat) (a b : Int) (ha : 0 ≤ a) (hb : 0 ≤ b) :
    pySlice xs a b = (xs.take b.toNat).drop a.toNat := by
  unfold pySlice pyBound
  rw [if_neg (by omega), if_neg (by omega), take_min_length]
  rcases le_total a.toNat xs.length with h | h
  · rw [min_eq_left h]
  · rw [min_eq_right h, List.drop_eq_nil_of_le, List.drop_eq_nil_of_le]
    · calc (xs.take b.toNat).length ≤ xs.length := by
            simp [List.length_take]
         _ ≤ a.toNat := h
    · simp [List.length_take]

lemma tdiv_natCast (a b : Nat) :
    Int.tdiv (a : Int) (b : Int) = ((a / b : Nat) : Int) := rfl

lemma unpackChunks_length (size : Nat) :
    ∀ (n : Nat) (data : List Nat), (unpackChunks size n data).length = n := by
  intro n
  induction n with
  | zero => intro data; rfl
  | succ m ih => intro data; simp [unpackChunks, ih]

lemma unpackChunks_get? (size : Nat) :
    ∀ (n i : Nat) (data : List Nat), i < n →
      (unpackChunks size n data).get? i =
        some (unpack1 size ((data.drop (size * i)).take size)) := by
  intro n
  induction n with
  | zero => intro i data h; omega
  | succ m ih =>
    intro i data h
    cases i with
    | zero => simp [unpackChunks]
    | succ j =>
      have hj : j < m := by omega
      rw [unpackChunks, List.get?_cons_succ, ih j (data.drop size) hj,
          List.drop_drop]
      congr 2
      ring_nf

lemma parseBlock_header (size d : Nat) (field tail : List Nat)
    (hd1 : 1 ≤ d) (hd9 : d ≤ 9) (hfl : field.length = d)
    (hdig : ∀ b ∈ field, isDigit b = true) :
    parseBlock size (35 :: (48 + d) :: (field ++ tail)) =
      unpack size (Int.tdiv ((decVal field : Nat) : Int) (size : Int))
        (tail.take (decVal field)) := by
  have hne : field ≠ [] := by
    intro h
    rw [h] at hfl
    simp at hfl
    omega
  have hdigd : isDigit (48 + d) = true := by
    simp only [isDigit, decide_eq_true_eq]
    omega
  simp only [parseBlock]
  rw [if_neg (by simp)]
  simp only [List.get?_cons_succ, List.get?_cons_zero]
  have hchr : pyIntChr (48 + d) = .ok d := by
    rw [pyIntChr, if_pos hdigd]
    congr 1
    omega
  rw [hchr]
  dsimp only
  have htk : (35 :: (48 + d) :: (field ++ tail)).take (2 + d) =
      35 :: (48 + d) :: field := by
    rw [show 2 + d = d + 1 + 1 from by omega]
    simp only [List.take_succ_cons]
    rw [List.take_left' hfl]
  have hslice1 : pySlice (35 :: (48 + d) :: (field ++ tail)) 2 ((2 + d : Nat) : Int) = field := by
    rw [pySlice_nonneg _ _ _ (by omega) (Int.natCast_nonneg _), Int.toNat_natCast]
    rw [htk]
    rfl
  rw [hslice1, pyIntBytes_digits field hne hdig]
  dsimp only
  have hdrop : (35 :: (48 + d) :: (field ++ tail)).drop (2 + d) = tail := by
    rw [show 2 + d = d + 1 + 1 from by omega]
    simp only [List.drop_succ_cons]
    rw [List.drop_left' hfl]
  have hslice2 : pySlice (35 :: (48 + d) :: (field ++ tail)) ((2 + d : Nat) : Int)
      (((2 + d : Nat) : Int) + ((decVal field : Nat) : Int)) = tail.take (decVal field) := by
    rw [pySlice_nonneg _ _ _ (Int.natCast_nonneg _) (by positivity),
        ← Nat.cast_add, Int.toNat_natCast, Int.toNat_natCast,
        List.drop_take, hdrop]
    congr 1
    omega
  rw [hslice2]

lemma parseBlock_wellformed (size d : Nat) (field tail : List Nat)
    (hd1 : 1 ≤ d) (hd9 : d ≤ 9) (hfl : field.length = d)
    (hdig : ∀ b ∈ field, isDigit b = true)
    (hav : decVal field ≤ tail.length) (hmul : size ∣ decVal field) :
    parseBlock size (35 :: (48 + d) :: (field ++ tail)) =
      .ok (unpackChunks size (decVal field / size) (tail.take (decVal field))) := by
  rw [parseBlock_header size d field tail hd1 hd9 hfl hdig, tdiv_natCast]
  unfold unpack
  rw [Int.toNat_natCast, if_pos]
  rw [List.length_take, min_eq_left hav, Nat.mul_div_cancel' hmul]

lemma parseBlock_overlong (size d : Nat) (field tail : List Nat)
    (hd1 : 1 ≤ d) (hd9 : d ≤ 9) (hfl : field.length = d)
    (hdig : ∀ b ∈ field, isDigit b = true)
    (hover : tail.length < decVal field) :
    parseBlock size (35 :: (48 + d) :: (field ++ tail)) =
      if tail.length = size * (decVal field / size)
      then .ok (unpackChunks size (decVal field / size) tail)
      else .error .structError := by
  rw [parseBlock_header size d field tail hd1 hd9 hfl hdig, tdiv_natCast]
  unfold unpack
  rw [Int.toNat_natCast, List.take_of_length_le (le_of_lt hover)]

lemma parseBlock_nonmultiple (size d : Nat) (field tail : List Nat)
    (hd1 : 1 ≤ d) (hd9 : d ≤ 9) (hfl : field.length = d)
    (hdig : ∀ b ∈ field, isDigit b = true)
    (hav : decVal field ≤ tail.length) (hnm : ¬ size ∣ decVal field) :
    parseBlock size (35 :: (48 + d) :: (field ++ tail)) = .error .structError := by
  rw [parseBlock_header size d field tail hd1 hd9 hfl hdig, tdiv_natCast]
  unfold unpack
  rw [Int.toNat_natCast, if_neg]
  rw [List.length_take, min_eq_left hav]
  intro h
  exact hnm (h ▸ dvd_mul_right size (decVal field / size))

lemma real_ne_asc (fmt : String) (h : fmt = "REAL,32" ∨ fmt = "REAL,64") :
    ¬ fmt = "ASC,0" := by
  rcases h with h | h <;> rw [h] <;> decide

lemma query_binary (self : BlockDataCommand) (p : Nat) (w : Wire)
    (hfmt : ¬ self.format = "ASC,0") :
    self.query p w =
      ((parseBlock (elemSize self.format) w.buffer).map QueryResult.floats,
       [.protoWrite (some "FORM:DATA") [self.format], .protoWrite self._query [],
        .acquire, .rawWrite self._query, .rawReadUntil 10, .release],
       if self.protocol.isSome then { self with protocol := some p } else self) := by
  unfold BlockDataCommand.query
  rw [if_neg hfmt]

lemma query_ascii (self : BlockDataCommand) (p : Nat) (w : Wire)
    (hfmt : self.format = "ASC,0") :
    self.query p w =
      (.ok (.lazyMap w.asciiReply),
       [.protoWrite (some "FORM:DATA") [self.format], .protoQuery self._query],
       if self.protocol.isSome then { self with protocol := some p } else self) := by
  unfold BlockDataCommand.query
  rw [if_pos hfmt]

lemma consumeMap_ok (fs : List String) :
    exceptOk (consumeMap fs) = fs.all (fun f => exceptOk (pyFloat f)) := by
  induction fs with
  | nil => rfl
  | cons f t ih =>
    rw [consumeMap, List.all_cons]
    cases hf : pyFloat f with
    | error e => simp [exceptOk, hf]
    | ok v =>
      cases ht : consumeMap t with
      | error e => rw [← ih, ht]; simp [exceptOk]
      | ok vs => rw [← ih, ht]; simp [exceptOk]

lemma floatCount_map_ok (xs : List FloatVal) :
    floatCount (Except.map QueryResult.floats (.ok xs)) = xs.length := rfl

/-! ## The claims -/

/-- C1 (counterexample): the claim says that a declared byte count
exceeding the available payload raises a FrameError before any slice is
sized by it.  On the concrete reply below the header declares 7 payload
bytes while only 4 follow; the call raises nothing at all: the slice
clamps to the 4 available bytes, `int(7 / 4) = 1`, and `struct.unpack`
succeeds, so `query` silently returns one decoded value. -/
theorem claimC1_counterexample :
    pyIntBytes [55] = .ok 7 ∧
    exceptOk (BlockDataCommand.query ⟨none, some "CALC:DATA? FDATA", "REAL,32"⟩ 1
        ⟨[35, 49, 55, 0, 0, 0, 0], []⟩).1 = true ∧
    floatCount (BlockDataCommand.query ⟨none, some "CALC:DATA? FDATA", "REAL,32"⟩ 1
        ⟨[35, 49, 55, 0, 0, 0, 0], []⟩).1 = 1 := by
  decide

/-- C1 (amended): when the declared byte count exceeds the payload bytes
available in the read buffer, `query` performs the byte-count-sized slice
with no prior bounds check; Python slicing clamps it to the available
bytes, so nothing is read past the buffer, and no FrameError-style
ValueError is raised: the call returns `floor(byte_count / width)`
elements decoded from the truncated payload when the truncated length
happens to match, and raises a `struct.error` otherwise. -/
theorem claimC1_theorem (self : BlockDataCommand) (p : Nat) (w : Wire)
    (hfmt : self.format = "REAL,32" ∨ self.format = "REAL,64")
    (d : Nat) (field tail : List Nat)
    (hd1 : 1 ≤ d) (hd9 : d ≤ 9) (hfl : field.length = d)
    (hdig : ∀ b ∈ field, isDigit b = true)
    (hbuf : w.buffer = 35 :: (48 + d) :: (field ++ tail))
    (hover : tail.length < decVal field) :
    (self.query p w).1 =
      if tail.length = elemSize self.format * (decVal field / elemSize self.format)
      then .ok (.floats (unpackChunks (elemSize self.format)
        (decVal field / elemSize self.format) tail))
      else .error .structError := by
  rw [query_binary self p w (real_ne_asc _ hfmt)]
  dsimp only
  rw [hbuf, parseBlock_overlong (elemSize self.format) d field tail hd1 hd9 hfl hdig hover]
  split
  · rfl
  · rfl

/-- C1 (witness): the amended statement at the counterexample's reply. -/
theorem claimC1_witness :
    (BlockDataCommand.query ⟨none, some "CALC:DATA? FDATA", "REAL,32"⟩ 1
        ⟨[35, 49, 55, 0, 0, 0, 0], []⟩).1 =
      if ([0, 0, 0, 0] : List Nat).length =
          elemSize "REAL,32" * (decVal [55] / elemSize "REAL,32")
      then .ok (.floats (unpackChunks (elemSize "REAL,32")
        (decVal [55] / elemSize "REAL,32") [0, 0, 0, 0]))
      else .error .structError :=
  claimC1_theorem ⟨none, some "CALC:DATA? FDATA", "REAL,32"⟩ 1
    ⟨[35, 49, 55, 0, 0, 0, 0], []⟩ (Or.inl rfl) 1 [55] [0, 0, 0, 0]
    (by decide) (by decide) (by decide) (by decide) rfl (by decide)

/-- C2 (counterexample): the claim says a byte count that is not a
multiple of the element width raises a FrameError and is never silently
truncated.  On the reply below the header declares 9 bytes but only 8
follow; the slice clamps to 8 bytes, `int(9 / 4) = 2`, and the call
silently returns 2 elements: no error of any kind is raised. -/
theorem claimC2_counterexample :
    pyIntBytes [57] = .ok 9 ∧
    exceptOk (BlockDataCommand.query ⟨none, some "CALC:DATA? FDATA", "REAL,32"⟩ 1
        ⟨[35, 49, 57, 0, 0, 0, 0, 0, 0, 0, 0], []⟩).1 = true ∧
    floatCount (BlockDataCommand.query ⟨none, some "CALC:DATA? FDATA", "REAL,32"⟩ 1
        ⟨[35, 49, 57, 0, 0, 0, 0, 0, 0, 0, 0], []⟩).1 = 2 := by
  decide

/-- C2 (amended): when at least `byte_count` payload bytes are available
in the read buffer, a `byte_count` that is not an exact multiple of the
element width always raises an error, but it is a `struct.error` from
`struct.unpack` (the sliced payload's length does not fit the truncated
element count), not the ValueError the header checks use; with a shorter
buffer the call can instead silently truncate (see the counterexample). -/
theorem claimC2_theorem (self : BlockDataCommand) (p : Nat) (w : Wire)
    (hfmt : self.format = "REAL,32" ∨ self.format = "REAL,64")
    (d : Nat) (field tail : List Nat)
    (hd1 : 1 ≤ d) (hd9 : d ≤ 9) (hfl : field.length = d)
    (hdig : ∀ b ∈ field, isDigit b = true)
    (hbuf : w.buffer = 35 :: (48 + d) :: (field ++ tail))
    (hav : decVal field ≤ tail.length)
    (hnm : ¬ elemSize self.format ∣ decVal field) :
    (self.query p w).1 = .error .structError := by
  rw [query_binary self p w (real_ne_asc _ hfmt)]
  dsimp only
  rw [hbuf, parseBlock_nonmultiple (elemSize self.format) d field tail hd1 hd9 hfl hdig hav hnm]
  rfl

/-- C2 (witness): a declared byte count of 6 with 6 available payload
bytes under the 4-byte format raises the struct error. -/
theorem claimC2_witness :
    (BlockDataCommand.query ⟨none, some "CALC:DATA? FDATA", "REAL,32"⟩ 1
        ⟨[35, 49, 54, 0, 0, 0, 0, 0, 0], []⟩).1 = .error .structError :=
  claimC2_theorem ⟨none, some "CALC:DATA? FDATA", "REAL,32"⟩ 1
    ⟨[35, 49, 54, 0, 0, 0, 0, 0, 0], []⟩ (Or.inl rfl) 1 [54] [0, 0, 0, 0, 0, 0]
    (by decide) (by decide) (by decide) (by decide) rfl (by decide) (by decide)

/-- C3: for every well-formed binary block frame (marker byte, digit
count d in 1..9, d ASCII-decimal digits of byte count, at least
byte_count payload bytes available, byte_count an exact multiple of the
element width) the query returns exactly byte_count / width numbers, the
i-th one decoded big-endian from payload bytes i*width..(i+1)*width-1,
in transmission order. -/
theorem claimC3_theorem (self : BlockDataCommand) (p : Nat) (w : Wire)
    (hfmt : self.format = "REAL,32" ∨ self.format = "REAL,64")
    (d : Nat) (field tail : List Nat)
    (hd1 : 1 ≤ d) (hd9 : d ≤ 9) (hfl : field.length = d)
    (hdig : ∀ b ∈ field, isDigit b = true)
    (hbuf : w.buffer = 35 :: (48 + d) :: (field ++ tail))
    (hav : decVal field ≤ tail.length)
    (hmul : elemSize self.format ∣ decVal field) :
    (self.query p w).1 = .ok (.floats (unpackChunks (elemSize self.format)
        (decVal field / elemSize self.format) (tail.take (decVal field)))) ∧
    (unpackChunks (elemSize self.format) (decVal field / elemSize self.format)
        (tail.take (decVal field))).length = decVal field / elemSize self.format ∧
    ∀ i : Nat, ∀ hi : i < (unpackChunks (elemSize self.format)
        (decVal field / elemSize self.format) (tail.take (decVal field))).length,
      (unpackChunks (elemSize self.format) (decVal field / elemSize self.format)
          (tail.take (decVal field))).get ⟨i, hi⟩ =
        unpack1 (elemSize self.format)
          (((tail.take (decVal field)).drop (elemSize self.format * i)).take
            (elemSize self.format)) := by
  refine ⟨?_, unpackChunks_length _ _ _, ?_⟩
  · rw [query_binary self p w (real_ne_asc _ hfmt)]
    dsimp only
    rw [hbuf, parseBlock_wellformed (elemSize self.format) d field tail hd1 hd9 hfl hdig hav hmul]
    rfl
  · intro i hi
    have hi2 : i < decVal field / elemSize self.format := by
      rw [unpackChunks_length] at hi
      exact hi
    have hsome := unpackChunks_get? (elemSize self.format)
      (decVal field / elemSize self.format) i (tail.take (decVal field)) hi2
    rw [List.get?_eq_get hi] at hsome
    exact Option.some.inj hsome

/-- C3 (witness): the frame declaring 8 bytes with payload the big-endian
words of 1.0f and 2.0f decodes to those two values. -/
theorem claimC3_witness :
    (BlockDataCommand.query ⟨none, some "CALC:DATA? FDATA", "REAL,32"⟩ 1
        ⟨[35, 49, 56, 63, 128, 0, 0, 64, 0, 0, 0], []⟩).1 =
      .ok (.floats (unpackChunks (elemSize "REAL,32") (decVal [56] / elemSize "REAL,32")
        (([63, 128, 0, 0, 64, 0, 0, 0] : List Nat).take (decVal [56])))) ∧
    (unpackChunks (elemSize "REAL,32") (decVal [56] / elemSize "REAL,32")
        (([63, 128, 0, 0, 64, 0, 0, 0] : List Nat).take (decVal [56]))).length =
      decVal [56] / elemSize "REAL,32" ∧
    ∀ i : Nat, ∀ hi : i < (unpackChunks (elemSize "REAL,32")
        (decVal [56] / elemSize "REAL,32")
        (([63, 128, 0, 0, 64, 0, 0, 0] : List Nat).take (decVal [56]))).length,
      (unpackChunks (elemSize "REAL,32") (decVal [56] / elemSize "REAL,32")
          (([63, 128, 0, 0, 64, 0, 0, 0] : List Nat).take (decVal [56]))).get ⟨i, hi⟩ =
        unpack1 (elemSize "REAL,32")
          (((([63, 128, 0, 0, 64, 0, 0, 0] : List Nat).take (decVal [56])).drop
            (elemSize "REAL,32" * i)).take (elemSize "REAL,32")) :=
  claimC3_theorem ⟨none, some "CALC:DATA? FDATA", "REAL,32"⟩ 1
    ⟨[35, 49, 56, 63, 128, 0, 0, 64, 0, 0, 0], []⟩ (Or.inl rfl) 1 [56]
    [63, 128, 0, 0, 64, 0, 0, 0]
    (by decide) (by decide) (by decide) (by decide) rfl (by decide) (by decide)

/-- C4 (counterexample): the claim says all transport traffic of a binary
block-transfer exchange happens inside one scoped acquisition.  On the
concrete call below, traffic occurs while the acquisition is not held:
the format-select write and a protocol-level transmission of the query
instruction precede the `with transport` block. -/
theorem claimC4_counterexample :
    trafficOutside ((BlockDataCommand.query ⟨none, some "CALC:DATA? FDATA", "REAL,32"⟩ 1
      ⟨[35, 49, 52, 0, 0, 0, 0], []⟩).2.1) = true := by
  decide

/-- C4 (amended): only the raw re-transmission of the query instruction,
the header/payload read and nothing else happen inside the scoped
acquisition; the format-select write and a first protocol-level write of
the query instruction happen before the transport is acquired (so the
query instruction is transmitted twice), and the acquisition is released
on every exit path (the trace is the same whether parsing succeeds or
raises).  Some transport traffic therefore always lies outside the
acquisition. -/
theorem claimC4_theorem (self : BlockDataCommand) (p : Nat) (w : Wire)
    (hfmt : self.format = "REAL,32" ∨ self.format = "REAL,64") :
    (self.query p w).2.1 =
      [.protoWrite (some "FORM:DATA") [self.format], .protoWrite self._query [],
       .acquire, .rawWrite self._query, .rawReadUntil 10, .release] ∧
    trafficOutside (self.query p w).2.1 = true := by
  rw [query_binary self p w (real_ne_asc _ hfmt)]
  exact ⟨rfl, rfl⟩

/-- C4 (witness): the amended trace shape at a concrete call. -/
theorem claimC4_witness :
    (BlockDataCommand.query ⟨none, some "CALC:X?", "REAL,64"⟩ 1 ⟨[], []⟩).2.1 =
      [.protoWrite (some "FORM:DATA") ["REAL,64"], .protoWrite (some "CALC:X?") [],
       .acquire, .rawWrite (some "CALC:X?"), .rawReadUntil 10, .release] ∧
    trafficOutside (BlockDataCommand.query ⟨none, some "CALC:X?", "REAL,64"⟩ 1
      ⟨[], []⟩).2.1 = true :=
  claimC4_theorem ⟨none, some "CALC:X?", "REAL,64"⟩ 1 ⟨[], []⟩ (Or.inr rfl)

/-- C5: a binary-format reply buffer whose first byte is not the marker
or whose second byte is not an ASCII digit 1..9 makes the query raise
the header ValueError (the FrameError of the spec's taxonomy): a wrong
marker fails the explicit check, a non-digit second byte fails
`int(chr(data[1]))`, and a second byte of `0` leaves an empty length
field that fails `int('')`. -/
theorem claimC5_theorem (self : BlockDataCommand) (p : Nat) (w : Wire)
    (hfmt : self.format = "REAL,32" ∨ self.format = "REAL,64")
    (b0 b1 : Nat) (rest : List Nat)
    (hbuf : w.buffer = b0 :: b1 :: rest)
    (hbad : b0 ≠ 35 ∨ ¬ (49 ≤ b1 ∧ b1 ≤ 57)) :
    (self.query p w).1 = .error .valueError := by
  rw [query_binary self p w (real_ne_asc _ hfmt)]
  dsimp only
  rw [hbuf]
  suffices h : parseBlock (elemSize self.format) (b0 :: b1 :: rest) = .error .valueError by
    rw [h]
    rfl
  by_cases hb0 : b0 = 35
  · subst hb0
    have hb1 : ¬ (49 ≤ b1 ∧ b1 ≤ 57) := by
      rcases hbad with h | h
      · exact absurd rfl h
      · exact h
    simp only [parseBlock]
    rw [if_neg (by simp)]
    simp only [List.get?_cons_succ, List.get?_cons_zero]
    by_cases hd : isDigit b1
    · have hb48 : b1 = 48 := by
        simp only [isDigit, decide_eq_true_eq] at hd
        omega
      subst hb48
      rw [show pyIntChr 48 = .ok 0 from rfl]
      dsimp only
      have hsl : pySlice (35 :: 48 :: rest) 2 ((2 + 0 : Nat) : Int) = [] := by
        rw [pySlice_nonneg _ _ _ (by omega) (Int.natCast_nonneg _), Int.toNat_natCast]
        rw [show (2 + 0 : Nat) = 0 + 1 + 1 from rfl]
        simp only [List.take_succ_cons, List.take_zero]
        rfl
      rw [hsl]
      rfl
    · rw [pyIntChr, if_neg hd]
  · simp only [parseBlock]
    rw [if_pos hb0]

/-- C5 (witness): a buffer starting with an at-sign raises ValueError. -/
theorem claimC5_witness :
    (BlockDataCommand.query ⟨none, some "CALC:X?", "REAL,64"⟩ 1
        ⟨[64, 49, 0], []⟩).1 = .error .valueError :=
  claimC5_theorem ⟨none, some "CALC:X?", "REAL,64"⟩ 1 ⟨[64, 49, 0], []⟩
    (Or.inr rfl) 64 49 [0] rfl (Or.inl (by decide))

/-- C6 (counterexample): the claim (following the spec's example) says the
reply `#18000000` + 4000 payload bytes decodes to exactly 1000 values.
Under the header grammar the second character `1` declares a one-digit
length field, so the byte count is 8 and the six remaining `0` characters
plus the first two payload bytes form the payload: the call returns
exactly 2 decoded values, not 1000. -/
theorem claimC6_counterexample :
    floatCount ((BlockDataCommand.query ⟨none, some "CALC:DATA? FDATA", "REAL,32"⟩ 1
      ⟨[35, 49, 56, 48, 48, 48, 48, 48, 48] ++ List.replicate 4000 0 ++ [10],
       []⟩).1) = 2 := by
  rw [query_binary _ 1 _ (by decide)]
  dsimp only
  rw [show ([35, 49, 56, 48, 48, 48, 48, 48, 48] : List Nat) ++ List.replicate 4000 0 ++ [10]
      = 35 :: (48 + 1) :: ([56] ++ ([48, 48, 48, 48, 48, 48] ++ (List.replicate 4000 0 ++ [10])))
    from by simp only [List.cons_append, List.nil_append, List.append_assoc]]
  rw [show elemSize (BlockDataCommand.format ⟨none, some "CALC:DATA? FDATA", "REAL,32"⟩) = 4
    from rfl]
  rw [parseBlock_wellformed 4 1 [56]
      ([48, 48, 48, 48, 48, 48] ++ (List.replicate 4000 0 ++ [10]))
      (by decide) (by decide) (by decide) (by decide)
      (by simp only [List.length_append, List.length_replicate]; decide) (by decide)]
  rw [floatCount_map_ok, unpackChunks_length]
  decide

/-- C6 (amended): a reply whose header declares the 4000-byte payload
consistently with the grammar, `#44000` + 4000 payload bytes + the line
terminator, decodes to exactly 1000 values, the i-th one from payload
bytes 4i..4i+3 in big-endian order. -/
theorem claimC6_theorem (payload : List Nat) (hlen : payload.length = 4000) :
    (BlockDataCommand.query ⟨none, some "CALC:DATA? FDATA", "REAL,32"⟩ 1
        ⟨[35, 52, 52, 48, 48, 48] ++ payload ++ [10], []⟩).1 =
      .ok (.floats (unpackChunks 4 1000 payload)) ∧
    (unpackChunks 4 1000 payload).length = 1000 ∧
    ∀ i : Nat, ∀ hi : i < (unpackChunks 4 1000 payload).length,
      (unpackChunks 4 1000 payload).get ⟨i, hi⟩ =
        unpack1 4 ((payload.drop (4 * i)).take 4) := by
  have htake : (payload ++ [10]).take (decVal [52, 48, 48, 48]) = payload := by
    rw [show decVal [52, 48, 48, 48] = 4000 from by decide]
    exact List.take_left' hlen
  refine ⟨?_, unpackChunks_length _ _ _, ?_⟩
  · rw [query_binary _ 1 _ (by decide)]
    dsimp only
    rw [show ([35, 52, 52, 48, 48, 48] : List Nat) ++ payload ++ [10]
        = 35 :: (48 + 4) :: ([52, 48, 48, 48] ++ (payload ++ [10])) from by simp]
    rw [show elemSize (BlockDataCommand.format ⟨none, some "CALC:DATA? FDATA", "REAL,32"⟩) = 4
      from rfl]
    rw [parseBlock_wellformed 4 4 [52, 48, 48, 48] (payload ++ [10])
        (by decide) (by decide) (by decide) (by decide)
        (by simp only [List.length_append, hlen]; decide) (by decide)]
    rw [htake]
    rw [show decVal [52, 48, 48, 48] / 4 = 1000 from by decide]
    rfl
  · intro i hi
    have hi2 : i < 1000 := by
      rw [unpackChunks_length] at hi
      exact hi
    have hsome := unpackChunks_get? 4 1000 i payload hi2
    rw [List.get?_eq_get hi] at hsome
    exact Option.some.inj hsome

/-- C6 (witness): the amended statement at the all-zero 4000-byte payload. -/
theorem claimC6_witness :
    (BlockDataCommand.query ⟨none, some "CALC:DATA? FDATA", "REAL,32"⟩ 1
        ⟨[35, 52, 52, 48, 48, 48] ++ List.replicate 4000 0 ++ [10], []⟩).1 =
      .ok (.floats (unpackChunks 4 1000 (List.replicate 4000 0))) ∧
    (unpackChunks 4 1000 (List.replicate 4000 (0 : Nat))).length = 1000 ∧
    ∀ i : Nat, ∀ hi : i < (unpackChunks 4 1000 (List.replicate 4000 (0 : Nat))).length,
      (unpackChunks 4 1000 (List.replicate 4000 (0 : Nat))).get ⟨i, hi⟩ =
        unpack1 4 (((List.replicate 4000 (0 : Nat)).drop (4 * i)).take 4) :=
  claimC6_theorem (List.replicate 4000 0) (by rw [List.length_replicate])

/-- C7 (counterexample): the claim says a query call changes no attribute
of the Command.  A `BlockDataCommand` constructed with a protocol object
and then queried with a different protocol comes out of the call with its
`protocol` attribute overwritten: the object is not unchanged. -/
theorem claimC7_counterexample :
    BlockDataCommand.init (some "CALC:X?") (some 1) "REAL,64" =
      .ok ⟨some 1, some "CALC:X?", "REAL,64"⟩ ∧
    (BlockDataCommand.query ⟨some 1, some "CALC:X?", "REAL,64"⟩ 2 ⟨[], []⟩).2.2 ≠
      (⟨some 1, some "CALC:X?", "REAL,64"⟩ : BlockDataCommand) := by
  decide

/-- C7 (amended): a query call never changes `_query` or `format`, and a
Command constructed without a protocol (the Namespace-build path, where
`self.protocol` is None and hence falsy) is left fully unchanged; but
when `self.protocol` is set, the call overwrites it with the call's
protocol argument, so such a Command is not stateless across calls. -/
theorem claimC7_theorem (self : BlockDataCommand) (p : Nat) (w : Wire) :
    ((self.query p w).2.2)._query = self._query ∧
    ((self.query p w).2.2).format = self.format ∧
    (self.query p w).2.2 =
      (if self.protocol.isSome then { self with protocol := some p } else self) := by
  by_cases hfmt : self.format = "ASC,0"
  · rw [query_ascii self p w hfmt]
    refine ⟨?_, ?_, rfl⟩ <;> dsimp only <;> split <;> rfl
  · rw [query_binary self p w hfmt]
    refine ⟨?_, ?_, rfl⟩ <;> dsimp only <;> split <;> rfl

/-- C8 (counterexample): the claim says an unparsable field raises the
error during the query call itself.  On the concrete call below the call
returns successfully, handing back the lazy `map(float, ...)` object with
the unparsable field `abc` still unparsed; the ValueError only appears
when the returned object is consumed. -/
theorem claimC8_counterexample :
    (BlockDataCommand.query ⟨none, some "CALC:DATA? FDATA", "ASC,0"⟩ 1
        ⟨[], ["3.5", "abc"]⟩).1 = .ok (.lazyMap ["3.5", "abc"]) ∧
    consumeMap ["3.5", "abc"] = .error .valueError := by
  decide

/-- C8 (amended): the ASCII branch reads one delimited reply, splits it
into fields, and returns `map(float, fields)` unevaluated: the query call
itself never raises a parse error, whatever the fields hold; consuming
the returned map succeeds exactly when every field parses as a float
(and raises the first field's ValueError otherwise). -/
theorem claimC8_theorem (self : BlockDataCommand) (p : Nat) (w : Wire)
    (hfmt : self.format = "ASC,0") :
    (self.query p w).1 = .ok (.lazyMap w.asciiReply) ∧
    exceptOk (consumeMap w.asciiReply) =
      w.asciiReply.all (fun f => exceptOk (pyFloat f)) :=
  ⟨by rw [query_ascii self p w hfmt], consumeMap_ok _⟩

/-- C8 (witness): the amended statement at a reply with one good and one
bad field. -/
theorem claimC8_witness :
    (BlockDataCommand.query ⟨none, some "CALC:DATA? FDATA", "ASC,0"⟩ 1
        ⟨[], ["1.5", "x"]⟩).1 = .ok (.lazyMap ["1.5", "x"]) ∧
    exceptOk (consumeMap ["1.5", "x"]) =
      (["1.5", "x"] : List String).all (fun f => exceptOk (pyFloat f)) :=
  claimC8_theorem ⟨none, some "CALC:DATA? FDATA", "ASC,0"⟩ 1 ⟨[], ["1.5", "x"]⟩ rfl

/-- C9: constructing a `BlockDataCommand` with a format outside the
supported tuple raises ValueError (the spec taxonomy's UsageError)
immediately, before any exchange can happen (the constructor performs no
transport operation at all); a format inside the tuple constructs the
object successfully. -/
theorem claimC9_theorem (q : Option String) (pr : Option Nat) (format : String) :
    BlockDataCommand.init q pr format =
      if format = "REAL,32" ∨ format = "REAL,64" ∨ format = "ASC,0"
      then .ok { protocol := pr, _query := q, format := format }
      else .error .valueError := by
  unfold BlockDataCommand.init
  by_cases h : format = "REAL,32" ∨ format = "REAL,64" ∨ format = "ASC,0"
  · rw [if_pos h, if_pos]
    rcases h with h | h | h <;> subst h <;> rfl
  · rw [if_neg h, if_neg]
    intro hc
    apply h
    simpa using hc
  
/-- C10: the constructor's default format value `ascii` is itself not in
the accepted tuple, so constructing a `BlockDataCommand` without an
explicit format always raises ValueError, whatever the query and
protocol arguments are: no Command in a default-ASCII mode can exist. -/
theorem claimC10_theorem (q : Option String) (pr : Option Nat) :
    BlockDataCommand.init q pr defaultFormat = .error .valueError := rfl
